import Mathlib

/-!
# Verification of the mitre_cli table-extraction and record-reconstruction engine

Shallow embedding of the Rust sources of `mitre_cli` (src/lib.rs,
src/attack/mod.rs, src/attack/techniques.rs, src/attack/data_sources.rs,
src/attack/groups.rs, src/attack/mitigations.rs) together with theorems
settling the specification claims about the engine.

Strings are embedded as Lean `String` and cell sequences as `List String`.
Rust panics (out-of-bounds `Vec` indexing such as `row.cols[0]`) are embedded
by returning `Option.none` from the embedded function.  The HTML document
model (the `select` crate) is an external collaborator of the engine, so a
`Document` is embedded as the query results the engine reads from it.
-/

/-! ## Text normalizer (src/lib.rs and per-field normalization in the mappers) -/

/-- Embeds Rust `char::is_whitespace` (the Unicode `White_Space` property),
used by `str::split_whitespace` and `str::trim`. -/
def rustIsWhitespace (c : Char) : Bool :=
  c == ' ' || c == '\t' || c == '\n' || c == '\r' ||
  c.toNat == 0x0B || c.toNat == 0x0C || c.toNat == 0x85 || c.toNat == 0xA0 ||
  c.toNat == 0x1680 || (0x2000 ≤ c.toNat && c.toNat ≤ 0x200A) ||
  c.toNat == 0x2028 || c.toNat == 0x2029 || c.toNat == 0x202F ||
  c.toNat == 0x205F || c.toNat == 0x3000

/-- Embeds Rust `str::trim` on the character list of a string. -/
def rustTrimList (l : List Char) : List Char :=
  ((l.dropWhile rustIsWhitespace).reverse.dropWhile rustIsWhitespace).reverse

/-- Embeds Rust `str::trim`. -/
def rustTrim (s : String) : String :=
  ⟨rustTrimList s.data⟩

/-- Embeds Rust `str::starts_with(".")`: true iff the first character is a dot. -/
def startsWithDot (s : String) : Bool :=
  match s.data with
  | c :: _ => c == '.'
  | [] => false

/-- One-pass scanner embedding `RE.replace_all(text, "")` for the regex
`\[[0-9]+\]` (src/lib.rs line 10): every leftmost non-overlapping substring
made of a literal bracket, one or more ASCII digits and a closing bracket is
deleted.  The accumulator `buf` holds (reversed) a pending candidate match:
an opening bracket followed by the digits read so far. -/
def stripRefsAux : List Char → List Char → List Char
  | [], buf => buf.reverse
  | c :: cs, buf =>
    match buf with
    | [] =>
      if c == '[' then stripRefsAux cs [c]
      else c :: stripRefsAux cs []
    | _ :: _ =>
      if c == ']' then
        if 1 < buf.length then stripRefsAux cs []
        else buf.reverse ++ c :: stripRefsAux cs []
      else if c.isDigit then stripRefsAux cs (c :: buf)
      else if c == '[' then buf.reverse ++ stripRefsAux cs [c]
      else buf.reverse ++ c :: stripRefsAux cs []

/-- The bracketed-digit-reference removal pass of `remove_ext_link_ref`. -/
def stripRefs (l : List Char) : List Char :=
  stripRefsAux l []

/-- Embeds Rust `str::split_whitespace`: maximal runs of non-whitespace
characters, in order; `cur` holds the (reversed) token being read. -/
def splitWsAux : List Char → List Char → List (List Char)
  | [], cur => if cur.isEmpty then [] else [cur.reverse]
  | c :: cs, cur =>
    if rustIsWhitespace c then
      if cur.isEmpty then splitWsAux cs []
      else cur.reverse :: splitWsAux cs []
    else splitWsAux cs (c :: cur)

/-- Embeds Rust `str::split_whitespace`. -/
def split_whitespace (l : List Char) : List (List Char) :=
  splitWsAux l []

/-- Joins character lists with a single separator character, embedding
`Vec::join` of string slices. -/
def joinWith (sep : Char) : List (List Char) → List Char
  | [] => []
  | [x] => x
  | x :: xs => x ++ sep :: joinWith sep xs

/-- Embeds `remove_ext_link_ref` (src/lib.rs lines 34-41): delete every
`[digits]` reference, split the remainder on whitespace, drop empty tokens
and re-join the tokens with single spaces. -/
def remove_ext_link_ref (s : String) : String :=
  ⟨joinWith ' ' ((split_whitespace (stripRefs s.data)).filter (fun t => !t.isEmpty))⟩

/-- Embeds Rust `str::split("\n")`: pieces between newline characters,
keeping empty pieces. -/
def splitNlAux : List Char → List Char → List (List Char)
  | [], cur => [cur.reverse]
  | c :: cs, cur =>
    if c == '\n' then cur.reverse :: splitNlAux cs []
    else splitNlAux cs (c :: cur)

/-- Embeds Rust `str::split("\n")`. -/
def splitNl (l : List Char) : List (List Char) :=
  splitNlAux l []

/-- Embeds Rust `str::split(",")`, used for comma-separated entity lists. -/
def splitCommaAux : List Char → List Char → List String
  | [], cur => [⟨cur.reverse⟩]
  | c :: cs, cur =>
    if c == ',' then (⟨cur.reverse⟩ : String) :: splitCommaAux cs []
    else splitCommaAux cs (c :: cur)

/-- Embeds Rust `str::split(",")` collected into a vector of strings. -/
def splitComma (s : String) : List String :=
  splitCommaAux s.data []

/-- Embeds the recurring description normalization of the row mappers:
`if s.contains("\n") { s.split("\n").map(|p| p.trim()).join("\n") }`. -/
def normalizeLines (s : String) : String :=
  if s.data.contains '\n' then
    ⟨joinWith '\n' ((splitNl s.data).map rustTrimList)⟩
  else s

/-- Embeds the `used_for`/description pipeline of the domain mappers:
`remove_ext_link_ref(&s.trim()).split("\n").map(|p| p.trim()).join("\n")`. -/
def normalizeUsedFor (s : String) : String :=
  ⟨joinWith '\n' ((splitNl (remove_ext_link_ref (rustTrim s)).data).map rustTrimList)⟩

/-! ## Data model (src/attack/mod.rs) -/

/-- Embeds `struct Row { cols: Vec<String> }` (src/attack/mod.rs). -/
structure Row where
  cols : List String
deriving DecidableEq, Repr

/-- Modelled from the spec: `Row::get_col` is declared by the row mappers but
its body is not under src/.  Per the spec a row is an ordered sequence of
column strings and "a row with fewer columns than a mapper expects" makes the
field absent, so the accessor is positional lookup, absent exactly when the
index is beyond the row's column count. -/
def Row.get_col (row : Row) (inx : Nat) : Option String :=
  row.cols.get? inx

/-- Embeds `struct Table { headers: Vec<String>, rows: Vec<Row> }`. -/
structure Table where
  headers : List String
  rows : List Row
deriving DecidableEq, Repr

/-- Modelled from the spec: `Table::is_empty` is called by the optional table
conversions but its body is not under src/.  Per the spec a table with zero
rows is the empty table ("a page legitimately can render zero rows"), so
emptiness is emptiness of the row sequence. -/
def Table.is_empty (t : Table) : Bool :=
  t.rows.isEmpty

/-! ## The shared parent/child grouping loop

`From<Table> for TechniquesTable` (src/attack/techniques.rs lines 145-168),
`From<Table> for DomainTechniquesTable` (lines 672-695) and
`From<Table> for DetectionsTable` (src/attack/data_sources.rs lines 302-325)
are the same `Rc<RefCell<_>>` loop instantiated at three parent types:
iterate the rows; a row whose `cols[0]` is non-empty becomes a new current
parent pushed to the output; any other row is added as a child of the current
parent.  Before the first parent is pushed the current parent is a dangling
`Rc::default()` that is never pushed, so children added to it are discarded.
`row.cols[0]` panics when the row has no columns; the panic is embedded as
`none`. -/

/-- The grouping loop shared by the three table-to-entity conversions,
parameterized by the parent constructor and the add-child mutation.
`acc` is the (reversed) vector of already-pushed parents; children mutate its
head, the most recently pushed parent.  `none` embeds the `row.cols[0]`
index panic on a zero-column row. -/
def groupFoldAux {P : Type} (fromParent : Row → P) (addChild : P → Row → P) :
    List Row → List P → Option (List P)
  | [], acc => some acc.reverse
  | r :: rs, acc =>
    match r.cols with
    | [] => none
    | c0 :: _ =>
      if c0.isEmpty then
        match acc with
        | [] => groupFoldAux fromParent addChild rs acc
        | p :: ps => groupFoldAux fromParent addChild rs (addChild p r :: ps)
      else groupFoldAux fromParent addChild rs (fromParent r :: acc)

/-- The grouping loop run from an empty output vector. -/
def groupFold {P : Type} (fromParent : Row → P) (addChild : P → Row → P)
    (rows : List Row) : Option (List P) :=
  groupFoldAux fromParent addChild rows []

/-! ## Techniques (src/attack/techniques.rs) -/

namespace Techniques

/-- Embeds `struct SubTechniqueRow` (src/attack/techniques.rs). -/
structure SubTechniqueRow where
  id : String := ""
  name : String := ""
  description : String := ""
deriving DecidableEq, Repr

/-- Embeds `impl From<Row> for SubTechniqueRow`: fixed columns 1, 2, 3. -/
def SubTechniqueRow.fromRow (row : Row) : SubTechniqueRow :=
  { id := (row.get_col 1).getD ""
    name := (row.get_col 2).getD ""
    description :=
      match row.get_col 3 with
      | some desc => normalizeLines desc
      | none => "" }

/-- Embeds `struct TechniqueRow` (src/attack/techniques.rs). -/
structure TechniqueRow where
  id : String := ""
  name : String := ""
  description : String := ""
  sub_techniques : Option (List SubTechniqueRow) := none
deriving DecidableEq, Repr

/-- Embeds `TechniqueRow::add_subtechnique`: the child id is prefixed with the
parent id and the child name with `"parent: "`, then the child is pushed. -/
def TechniqueRow.add_subtechnique (t : TechniqueRow) (s : SubTechniqueRow) :
    TechniqueRow :=
  { t with
    sub_techniques :=
      some ((t.sub_techniques.getD []) ++
        [{ s with id := t.id ++ s.id, name := t.name ++ ": " ++ s.name }]) }

/-- Embeds `impl From<Row> for TechniqueRow`: fixed columns 0, 1, 2. -/
def TechniqueRow.fromRow (row : Row) : TechniqueRow :=
  { id := (row.get_col 0).getD ""
    name := (row.get_col 1).getD ""
    description :=
      match row.get_col 2 with
      | some desc => normalizeLines desc
      | none => "" }

/-- Embeds `struct TechniquesTable(pub Vec<TechniqueRow>)`. -/
structure TechniquesTable where
  rows : List TechniqueRow
deriving DecidableEq, Repr

/-- Embeds `impl From<Table> for TechniquesTable` (src/attack/techniques.rs
lines 145-168), the parent/child grouping loop at `TechniqueRow`. -/
def TechniquesTable.fromTable (table : Table) : Option TechniquesTable :=
  (groupFold TechniqueRow.fromRow
      (fun p r => p.add_subtechnique (SubTechniqueRow.fromRow r))
      table.rows).map TechniquesTable.mk

/-- Embeds `enum ProcedureType`. -/
inductive ProcedureType where
  | software
  | group
  | unknown
deriving DecidableEq, Repr

/-- Embeds `impl From<&String> for ProcedureType`. -/
def ProcedureType.fromString (s : String) : ProcedureType :=
  if s.startsWith "S" then .software
  else if s.startsWith "G" then .group
  else .unknown

/-- Embeds `struct ProcedureRow`. -/
structure ProcedureRow where
  id : String := ""
  name : String := ""
  description : String := ""
  procedure_type : ProcedureType := .unknown
deriving DecidableEq, Repr

/-- Embeds `impl From<Row> for ProcedureRow`: fixed columns 0, 1, 2; the
description splits on newlines and strips reference markers per line. -/
def ProcedureRow.fromRow (row : Row) : ProcedureRow :=
  { id := (row.get_col 0).getD ""
    procedure_type :=
      match row.get_col 0 with
      | some id => ProcedureType.fromString id
      | none => .unknown
    name := (row.get_col 1).getD ""
    description :=
      match row.get_col 2 with
      | some desc =>
        ⟨joinWith '\n' ((splitNl desc.data).map
          (fun p => (remove_ext_link_ref (rustTrim ⟨p⟩)).data))⟩
      | none => "" }

/-- Embeds `struct ProceduresTable(pub Vec<ProcedureRow>)`. -/
structure ProceduresTable where
  rows : List ProcedureRow
deriving DecidableEq, Repr

/-- Embeds `impl From<Table> for Option<ProceduresTable>`: the empty table
maps to `None`, otherwise every row is mapped in order. -/
def proceduresOptFromTable (table : Table) : Option ProceduresTable :=
  if table.is_empty then none
  else some ⟨table.rows.map ProcedureRow.fromRow⟩

/-- Embeds `struct DetectionRow` of src/attack/techniques.rs. -/
structure DetectionRow where
  id : String := ""
  data_source : String := ""
  data_comp : String := ""
  detects : Option String := none
deriving DecidableEq, Repr

/-- Embeds `impl From<Row> for DetectionRow` (techniques.rs): fixed columns
0, 1, 2, 3; the detects column is trimmed and stripped of references. -/
def DetectionRow.fromRow (row : Row) : DetectionRow :=
  { id := (row.get_col 0).getD ""
    data_source := (row.get_col 1).getD ""
    data_comp := (row.get_col 2).getD ""
    detects :=
      match row.get_col 3 with
      | some detects => some (remove_ext_link_ref (rustTrim detects))
      | none => none }

/-- Embeds `struct DetectionsTable(pub Vec<DetectionRow>)` of techniques.rs. -/
structure DetectionsTable where
  rows : List DetectionRow
deriving DecidableEq, Repr

/-- The sticky-column loop of `impl From<Table> for Option<DetectionsTable>`
(src/attack/techniques.rs lines 478-507): `base_id`/`base_data_source` are
replaced by a row's `cols[0]`/`cols[1]` when those are non-empty, and every
produced row carries the current base values.  `none` embeds the unguarded
`row.cols[0]`/`row.cols[1]` index panic on a row with fewer than 2 columns. -/
def detectionsAux : String → String → List Row → Option (List DetectionRow)
  | _, _, [] => some []
  | base_id, base_data_source, r :: rs =>
    match r.cols.get? 0, r.cols.get? 1 with
    | some c0, some c1 =>
      let newId := if c0.isEmpty then base_id else c0
      let newSrc := if c1.isEmpty then base_data_source else c1
      match detectionsAux newId newSrc rs with
      | some rest =>
        some ({ DetectionRow.fromRow r with id := newId, data_source := newSrc } :: rest)
      | none => none
    | _, _ => none

/-- Embeds `impl From<Table> for Option<DetectionsTable>` (techniques.rs):
the empty table maps to `None`; otherwise the sticky loop runs with empty
initial base values.  The outer `Option` embeds the index panic. -/
def detectionsTableFromTable (table : Table) : Option (Option DetectionsTable) :=
  if table.is_empty then some none
  else (detectionsAux "" "" table.rows).map (fun l => some ⟨l⟩)

end Techniques

/-! ## Techniques, domain tables (`pub mod domain` in src/attack/techniques.rs) -/

namespace Techniques

namespace Domain

/-- Embeds `struct DomainSubTechniqueRow`. -/
structure DomainSubTechniqueRow where
  id : String := ""
  name : String := ""
  used_for : String := ""
deriving DecidableEq, Repr

/-- Embeds `impl From<Row> for DomainSubTechniqueRow`: fixed columns 2, 3, 4. -/
def DomainSubTechniqueRow.fromRow (row : Row) : DomainSubTechniqueRow :=
  { id := (row.get_col 2).getD ""
    name := (row.get_col 3).getD ""
    used_for :=
      match row.get_col 4 with
      | some used_for => normalizeUsedFor used_for
      | none => "" }

/-- Embeds `struct DomainTechniqueRow`. -/
structure DomainTechniqueRow where
  domain : String := ""
  id : String := ""
  name : String := ""
  used_for : String := ""
  sub_techniques : Option (List DomainSubTechniqueRow) := none
deriving DecidableEq, Repr

/-- Embeds `DomainTechniqueRow::add_sub_technique`: the child is pushed
unchanged. -/
def DomainTechniqueRow.add_sub_technique (t : DomainTechniqueRow)
    (s : DomainSubTechniqueRow) : DomainTechniqueRow :=
  { t with sub_techniques := some ((t.sub_techniques.getD []) ++ [s]) }

/-- Embeds `impl From<Row> for DomainTechniqueRow` (src/attack/techniques.rs
lines 611-648): a running cursor `inx` starts at 0; the domain read, the id
read and the name read each advance it by one when the column is present; the
peeked column after the id is appended to the id (and consumes a slot) only
when it starts with a dot.  Each `let` below is the
(value read, cursor after the read) pair of one step. -/
def DomainTechniqueRow.fromRow (row : Row) : DomainTechniqueRow :=
  let d : String × Nat :=
    match row.get_col 0 with
    | some domain => (domain, 1)
    | none => ("", 0)
  let i : String × Nat :=
    match row.get_col d.2 with
    | some id => (id, d.2 + 1)
    | none => ("", d.2)
  let c : String × Nat :=
    match row.get_col i.2 with
    | some sub_id =>
      if startsWithDot sub_id then (i.1 ++ sub_id, i.2 + 1) else (i.1, i.2)
    | none => (i.1, i.2)
  let n : String × Nat :=
    match row.get_col c.2 with
    | some name => (name, c.2 + 1)
    | none => ("", c.2)
  let u : String :=
    match row.get_col n.2 with
    | some used_for => normalizeUsedFor used_for
    | none => ""
  { domain := d.1, id := c.1, name := n.1, used_for := u, sub_techniques := none }

/-- Embeds `struct DomainTechniquesTable(pub Vec<DomainTechniqueRow>)`. -/
structure DomainTechniquesTable where
  rows : List DomainTechniqueRow
deriving DecidableEq, Repr

/-- Embeds `impl From<Table> for DomainTechniquesTable` (src/attack/
techniques.rs lines 672-695), the parent/child grouping loop at
`DomainTechniqueRow`. -/
def DomainTechniquesTable.fromTable (table : Table) :
    Option DomainTechniquesTable :=
  (groupFold DomainTechniqueRow.fromRow
      (fun p r => p.add_sub_technique (DomainSubTechniqueRow.fromRow r))
      table.rows).map DomainTechniquesTable.mk

/-- Embeds `impl From<Table> for Option<DomainTechniquesTable>`: the empty
table maps to `None`, otherwise to the grouping conversion.  The outer
`Option` embeds the index panic of the grouping loop. -/
def domainTechniquesOptFromTable (table : Table) :
    Option (Option DomainTechniquesTable) :=
  if table.is_empty then some none
  else (DomainTechniquesTable.fromTable table).map some

end Domain

end Techniques

/-! ## Mitigations (src/attack/mitigations.rs) -/

namespace Mitigations

/-- Embeds `struct MitigationRow`. -/
structure MitigationRow where
  id : String := ""
  name : String := ""
  description : String := ""
deriving DecidableEq, Repr

/-- Embeds `impl From<Row> for MitigationRow`: fixed columns 0, 1, 2. -/
def MitigationRow.fromRow (row : Row) : MitigationRow :=
  { id := (row.get_col 0).getD ""
    name := (row.get_col 1).getD ""
    description :=
      match row.get_col 2 with
      | some desc => normalizeLines desc
      | none => "" }

/-- Embeds `struct MitigationTable(pub Vec<MitigationRow>)`. -/
structure MitigationTable where
  rows : List MitigationRow
deriving DecidableEq, Repr

/-- Embeds `impl From<Table> for MitigationTable`: every row mapped in order. -/
def MitigationTable.fromTable (table : Table) : MitigationTable :=
  ⟨table.rows.map MitigationRow.fromRow⟩

/-- Embeds `impl From<Table> for Option<MitigationTable>`: the empty table
maps to `None`, otherwise every row is mapped in order. -/
def mitigationOptFromTable (table : Table) : Option MitigationTable :=
  if table.is_empty then none
  else some ⟨table.rows.map MitigationRow.fromRow⟩

end Mitigations

/-! ## Groups (src/attack/groups.rs) -/

namespace Groups

/-- Embeds `struct GroupRow`. -/
structure GroupRow where
  id : String := ""
  name : String := ""
  assoc_groups : Option (List String) := none
  description : String := ""
deriving DecidableEq, Repr

/-- Embeds `impl From<Row> for GroupRow`: fixed columns 0, 1, 2, 3; the
associated-groups column is split on commas. -/
def GroupRow.fromRow (row : Row) : GroupRow :=
  { id := (row.get_col 0).getD ""
    name := (row.get_col 1).getD ""
    assoc_groups :=
      match row.get_col 2 with
      | some assoc_groups => some (splitComma assoc_groups)
      | none => none
    description :=
      match row.get_col 3 with
      | some desc => normalizeLines desc
      | none => "" }

/-- Embeds `struct GroupsTable(pub Vec<GroupRow>)`. -/
structure GroupsTable where
  rows : List GroupRow
deriving DecidableEq, Repr

/-- Embeds `impl From<Table> for GroupsTable`: every row mapped in order. -/
def GroupsTable.fromTable (table : Table) : GroupsTable :=
  ⟨table.rows.map GroupRow.fromRow⟩

/-- Embeds `struct SoftwareRow` of src/attack/groups.rs. -/
structure SoftwareRow where
  id : String := ""
  name : String := ""
  techniques : List String := []
deriving DecidableEq, Repr

/-- Embeds `impl From<Row> for SoftwareRow` (groups.rs): columns 0, 1 and 3. -/
def SoftwareRow.fromRow (row : Row) : SoftwareRow :=
  { id := (row.get_col 0).getD ""
    name := (row.get_col 1).getD ""
    techniques :=
      match row.get_col 3 with
      | some techniques => splitComma techniques
      | none => [] }

/-- Embeds `struct SoftwareTable(pub Vec<SoftwareRow>)` of groups.rs. -/
structure SoftwareTable where
  rows : List SoftwareRow
deriving DecidableEq, Repr

/-- Embeds `impl From<Table> for Option<SoftwareTable>`: the empty table maps
to `None`, otherwise every row is mapped in order. -/
def softwareOptFromTable (table : Table) : Option SoftwareTable :=
  if table.is_empty then none
  else some ⟨table.rows.map SoftwareRow.fromRow⟩

end Groups

/-! ## Data sources (src/attack/data_sources.rs) -/

namespace DataSources

/-- Embeds `struct DataSourceRow`. -/
structure DataSourceRow where
  id : String := ""
  name : String := ""
  domain : String := ""
  description : String := ""
deriving DecidableEq, Repr

/-- Embeds `impl From<Row> for DataSourceRow`: fixed columns 0, 1, 2, 3. -/
def DataSourceRow.fromRow (row : Row) : DataSourceRow :=
  { id := (row.get_col 0).getD ""
    name := (row.get_col 1).getD ""
    domain :=
      match row.get_col 2 with
      | some domain => normalizeLines domain
      | none => ""
    description :=
      match row.get_col 3 with
      | some desc => normalizeLines desc
      | none => "" }

/-- Embeds `struct DataSourcesTable(pub Vec<DataSourceRow>)`. -/
structure DataSourcesTable where
  rows : List DataSourceRow
deriving DecidableEq, Repr

/-- Embeds `impl From<Table> for DataSourcesTable`: every row mapped in order. -/
def DataSourcesTable.fromTable (table : Table) : DataSourcesTable :=
  ⟨table.rows.map DataSourceRow.fromRow⟩

/-- Embeds `struct SubDetectionRow`. -/
structure SubDetectionRow where
  id : String := ""
  name : String := ""
  detects : String := ""
deriving DecidableEq, Repr

/-- Embeds `impl From<Row> for SubDetectionRow`: fixed columns 2, 3, 4. -/
def SubDetectionRow.fromRow (row : Row) : SubDetectionRow :=
  { id := (row.get_col 2).getD ""
    name := (row.get_col 3).getD ""
    detects :=
      match row.get_col 4 with
      | some desc => remove_ext_link_ref desc
      | none => "" }

/-- Embeds `struct DetectionRow` of src/attack/data_sources.rs. -/
structure DetectionRow where
  domain : String := ""
  id : String := ""
  name : String := ""
  detects : String := ""
  sub_detections : Option (List SubDetectionRow) := none
deriving DecidableEq, Repr

/-- Embeds `DetectionRow::add_subdetection` (data_sources.rs): the child id
and name are prefixed with the parent id and name, then the child is pushed. -/
def DetectionRow.add_subdetection (t : DetectionRow) (s : SubDetectionRow) :
    DetectionRow :=
  { t with
    sub_detections :=
      some ((t.sub_detections.getD []) ++
        [{ s with id := t.id ++ s.id, name := t.name ++ s.name }]) }

/-- Embeds `impl From<Row> for DetectionRow` (src/attack/data_sources.rs
lines 196-229): the same running-cursor mapper as
`Techniques.Domain.DomainTechniqueRow.fromRow`, with the last read named
`detects` and stripped of reference markers without the trim/split steps. -/
def DetectionRow.fromRow (row : Row) : DetectionRow :=
  let d : String × Nat :=
    match row.get_col 0 with
    | some domain => (domain, 1)
    | none => ("", 0)
  let i : String × Nat :=
    match row.get_col d.2 with
    | some id => (id, d.2 + 1)
    | none => ("", d.2)
  let c : String × Nat :=
    match row.get_col i.2 with
    | some sub_id =>
      if startsWithDot sub_id then (i.1 ++ sub_id, i.2 + 1) else (i.1, i.2)
    | none => (i.1, i.2)
  let n : String × Nat :=
    match row.get_col c.2 with
    | some name => (name, c.2 + 1)
    | none => ("", c.2)
  let de : String :=
    match row.get_col n.2 with
    | some desc => remove_ext_link_ref desc
    | none => ""
  { domain := d.1, id := c.1, name := n.1, detects := de, sub_detections := none }

/-- Embeds `struct DetectionsTable(pub Vec<DetectionRow>)` of data_sources.rs. -/
structure DetectionsTable where
  rows : List DetectionRow
deriving DecidableEq, Repr

/-- Embeds `impl From<Table> for DetectionsTable` (src/attack/data_sources.rs
lines 302-325), the parent/child grouping loop at `DetectionRow`. -/
def DetectionsTable.fromTable (table : Table) : Option DetectionsTable :=
  (groupFold DetectionRow.fromRow
      (fun p r => p.add_subdetection (SubDetectionRow.fromRow r))
      table.rows).map DetectionsTable.mk

end DataSources

/-! ## Document model and scraping (src/attack/mod.rs)

The `select` crate's DOM is the engine's external collaborator: the engine
only reads query results from it.  A `TableNode` carries the query results
`scrape_table` reads from one `<table>` element: the header-cell texts and,
for every `<tbody>` row in document order, the `<td>` texts of that row in
document order (a cell-less row contributes the empty list).  A `Document`
carries the query results the assemblers read from one parsed page. -/

/-- One `<table>` element, as seen through the queries of `scrape_table`. -/
structure TableNode where
  headerTexts : List String
  bodyRows : List (List String)
deriving DecidableEq, Repr

/-- Embeds `scrape_table` (src/attack/mod.rs lines 52-75): headers are the
header-cell texts; every body row becomes a `Row` of its individually trimmed
cell texts, a cell-less row becoming a zero-column `Row`. -/
def scrape_table (table_node : TableNode) : Table :=
  { headers := table_node.headerTexts
    rows := table_node.bodyRows.map (fun cells => ⟨cells.map rustTrim⟩) }

/-- One direct child of the `div.container-fluid` page container matched by
the `scrape_entity_h2_tables` query: an `<h2>` (with its optional `id`
attribute), a `<table>`, or a `<p>`. -/
inductive PageNode where
  | h2 (id : Option String)
  | tableEl (t : TableNode)
  | par
deriving DecidableEq, Repr

/-- One parsed page, as seen through the document queries of the engine:
all `<table>` elements in document order, the matched children of the page
container in document order, the `<h1>` text nodes, and the description
paragraphs. -/
structure Document where
  tables : List TableNode
  containerChildren : List PageNode
  h1Texts : List String
  descParagraphs : List String
deriving DecidableEq, Repr

/-- Embeds `scrape_tables`: every table element of the document, in document
order, passed through `scrape_table`. -/
def scrape_tables (document : Document) : List Table :=
  document.tables.map scrape_table

/-- Embeds `scrape_entity_name`: the trimmed `<h1>` texts joined by spaces. -/
def scrape_entity_name (document : Document) : String :=
  ⟨joinWith ' ' (document.h1Texts.map (fun s => (rustTrim s).data))⟩

/-- Embeds `scrape_entity_description`: the description paragraphs joined by
newlines, then stripped of reference markers. -/
def scrape_entity_description (document : Document) : String :=
  remove_ext_link_ref ⟨joinWith '\n' (document.descParagraphs.map String.data)⟩

/-! The named-section table map.  `HashMap<String, Table>` is embedded as an
association list with unique keys: `insertAL` replaces an existing binding
(`HashMap::insert`), `lookupAL` finds the binding of a key, and `removeAL`
embeds `HashMap::remove`, returning the removed value and the rest. -/

/-- Embeds `HashMap::insert`: replace the binding of the key if present,
otherwise add one. -/
def insertAL (m : List (String × Table)) (key : String) (v : Table) :
    List (String × Table) :=
  match m with
  | [] => [(key, v)]
  | (k, w) :: rest =>
    if k = key then (key, v) :: rest else (k, w) :: insertAL rest key v

/-- Embeds `HashMap::get`-style lookup. -/
def lookupAL (m : List (String × Table)) (key : String) : Option Table :=
  match m with
  | [] => none
  | (k, w) :: rest => if k = key then some w else lookupAL rest key

/-- Embeds `HashMap::remove`: the removed binding's value (if any) and the
remaining map. -/
def removeAL (key : String) (m : List (String × Table)) :
    Option Table × List (String × Table) :=
  match m with
  | [] => (none, [])
  | (k, w) :: rest =>
    if k = key then (some w, rest)
    else
      let r := removeAL key rest
      (r.1, (k, w) :: r.2)

/-- The loop body state of `scrape_entity_h2_tables`: the current `table_id`
and the map built so far. -/
def h2ScanStep (st : Option String × List (String × Table)) (node : PageNode) :
    Option String × List (String × Table) :=
  match node with
  | .h2 id => (id, st.2)
  | .tableEl t =>
    match st.1 with
    | some table_id => (st.1, insertAL st.2 table_id (scrape_table t))
    | none => st
  | .par => st

/-- Embeds `scrape_entity_h2_tables` (src/attack/mod.rs lines 106-128): scan
the matched children of the page container in document order; every `<h2>`
overwrites `table_id` with its `id` attribute (absent when the heading has
none); every `<table>` is inserted under the current `table_id` when one is
present, and skipped otherwise; `<p>` children are ignored. -/
def scrape_entity_h2_tables (document : Document) : List (String × Table) :=
  (document.containerChildren.foldl h2ScanStep (none, [])).2

/-! ## Errors and fetch-layer results (src/error.rs, src/lib.rs)

`WebFetch::fetch` delivers either an `Error` or the raw page text, which the
assemblers parse wholesale into a `Document`; the fetched-and-parsed page is
therefore embedded as `Except Error Document`. -/

/-- Embeds `enum Error` (src/error.rs). -/
inductive Error where
  | requestErr (msg : String)
  | generalErr (msg : String)
  | ioErr (msg : String)
  | parserErr (msg : String)
  | invalidValue (msg : String)
  | typeConversion (msg : String)
  | pathNotFound (msg : String)
deriving DecidableEq, Repr

/-! ## Entity assemblers -/

/-- Embeds `fetch_techniques` (src/attack/techniques.rs lines 224-234): a
fetch error propagates; otherwise `scrape_tables(&document).pop()` takes the
LAST table of the document, `map_or` substituting the empty default table
when the document has none.  The domain argument only selects the URL given
to the fetch layer and is omitted.  The outer `Option` embeds the index
panic of the grouping conversion. -/
def fetch_techniques (resp : Except Error Document) :
    Option (Except Error Techniques.TechniquesTable) :=
  match resp with
  | .error e => some (.error e)
  | .ok document =>
    match (scrape_tables document).getLast? with
    | none => some (.ok ⟨[]⟩)
    | some table => (Techniques.TechniquesTable.fromTable table).map Except.ok

/-- Embeds `fetch_groups` (src/attack/groups.rs lines 118-125):
`scrape_tables(&document).pop()` takes the LAST table, with the empty default
when the document has none; the row mapping is total. -/
def fetch_groups (resp : Except Error Document) :
    Except Error Groups.GroupsTable :=
  match resp with
  | .error e => .error e
  | .ok document =>
    match (scrape_tables document).getLast? with
    | none => .ok ⟨[]⟩
    | some table => .ok (Groups.GroupsTable.fromTable table)

/-- Embeds `MitigationTable::fetch_mitigations` (src/attack/mitigations.rs
lines 112-122): `pop()` takes the LAST table, empty default when none. -/
def fetch_mitigations (resp : Except Error Document) :
    Except Error Mitigations.MitigationTable :=
  match resp with
  | .error e => .error e
  | .ok document =>
    match (scrape_tables document).getLast? with
    | none => .ok ⟨[]⟩
    | some table => .ok (Mitigations.MitigationTable.fromTable table)

/-- Embeds `fetch_data_sources` (src/attack/data_sources.rs lines 123-130):
`pop()` takes the LAST table, empty default when none. -/
def fetch_data_sources (resp : Except Error Document) :
    Except Error DataSources.DataSourcesTable :=
  match resp with
  | .error e => .error e
  | .ok document =>
    match (scrape_tables document).getLast? with
    | none => .ok ⟨[]⟩
    | some table => .ok (DataSources.DataSourcesTable.fromTable table)

/-- Embeds `struct Technique` (src/attack/techniques.rs). -/
structure Technique where
  id : String := ""
  name : String := ""
  description : String := ""
  procedures : Option Techniques.ProceduresTable := none
  mitigations : Option Mitigations.MitigationTable := none
  detections : Option Techniques.DetectionsTable := none
deriving DecidableEq, Repr

/-- Embeds `fetch_technique` (src/attack/techniques.rs lines 519-550): build
the section-table map, then populate each optional field from the
corresponding removed slug (`examples`, `mitigations`, `detection`) when
present, leaving it `None` otherwise.  The outer `Option` embeds the index
panic of the detections conversion. -/
def fetch_technique (technique_id : String) (resp : Except Error Document) :
    Option (Except Error Technique) :=
  match resp with
  | .error e => some (.error e)
  | .ok document =>
    let tables0 := scrape_entity_h2_tables document
    let ex := removeAL "examples" tables0
    let mi := removeAL "mitigations" ex.2
    let de := removeAL "detection" mi.2
    let procedures : Option Techniques.ProceduresTable :=
      match ex.1 with
      | some examples_table => Techniques.proceduresOptFromTable examples_table
      | none => none
    let mitigations : Option Mitigations.MitigationTable :=
      match mi.1 with
      | some mitigations_table => Mitigations.mitigationOptFromTable mitigations_table
      | none => none
    let detections? : Option (Option Techniques.DetectionsTable) :=
      match de.1 with
      | some detections_table => Techniques.detectionsTableFromTable detections_table
      | none => some none
    match detections? with
    | none => none
    | some detections =>
      some (.ok
        { id := technique_id
          name := scrape_entity_name document
          description := scrape_entity_description document
          procedures := procedures
          mitigations := mitigations
          detections := detections })

namespace Groups

/-- Embeds `struct Group` (src/attack/groups.rs); named `Groups.Group` here
because the bare name collides with the Mathlib algebraic structure. -/
structure Group where
  id : String := ""
  name : String := ""
  desc : String := ""
  assoc_groups : Option (List String) := none
  techniques : Option Techniques.Domain.DomainTechniquesTable := none
  software : Option Groups.SoftwareTable := none
deriving DecidableEq, Repr

end Groups

/-- Embeds `Group::fetch_group` (src/attack/groups.rs lines 218-250): build
the section-table map, then populate `techniques`, `software` and
`assoc_groups` from the removed slugs `techniques`, `software` and
`aliasDescription` when present, leaving them `None` otherwise; the
associated groups are the `cols[0]` values of the alias table's rows.  The
outer `Option` embeds the index panics of the techniques conversion and of
the alias `cols[0]` read. -/
def Groups.Group.fetch_group (group_id : String) (resp : Except Error Document) :
    Option (Except Error Groups.Group) :=
  match resp with
  | .error e => some (.error e)
  | .ok document =>
    let tables0 := scrape_entity_h2_tables document
    let te := removeAL "techniques" tables0
    let so := removeAL "software" te.2
    let al := removeAL "aliasDescription" so.2
    let techniques? : Option (Option Techniques.Domain.DomainTechniquesTable) :=
      match te.1 with
      | some techniques_table =>
        Techniques.Domain.domainTechniquesOptFromTable techniques_table
      | none => some none
    let software : Option Groups.SoftwareTable :=
      match so.1 with
      | some software_table => Groups.softwareOptFromTable software_table
      | none => none
    let assoc_groups? : Option (Option (List String)) :=
      match al.1 with
      | some assoc_groups_table =>
        (assoc_groups_table.rows.mapM (fun r => List.head? r.cols)).map some
      | none => some none
    match techniques?, assoc_groups? with
    | some techniques, some assoc_groups =>
      some (.ok
        { id := group_id
          name := scrape_entity_name document
          desc := scrape_entity_description document
          assoc_groups := assoc_groups
          techniques := techniques
          software := software })
    | _, _ => none

/-! ## Specification-side reference functions

These definitions follow the spec's words (not the source) and are compared
with the embedded conversions in the refinement theorems below. -/

/-- The spec's parent marker: the designated marker column (column 0) is
non-empty.  On zero-column rows the marker column is read as empty. -/
def isParentRow (r : Row) : Bool :=
  !((r.cols.headD "").isEmpty)

/-- Spec-side grouping (spec 4.4): parents are the marker rows in input
order; each parent's children are the maximal run of non-marker rows that
immediately follows it, in input order; a leading non-marker row belongs to
no parent.  The grouping is two-level by construction: children are plain
rows, never grouped further. -/
def groupSpec : List Row → List (Row × List Row)
  | [] => []
  | r :: rs =>
    if isParentRow r then
      (r, rs.takeWhile (fun x => !isParentRow x)) ::
        groupSpec (rs.dropWhile (fun x => !isParentRow x))
    else groupSpec rs
termination_by l => l.length
decreasing_by
  · simp only [List.length_cons]
    have h := (List.dropWhile_sublist (l := rs) (fun x => !isParentRow x)).length_le
    omega
  · simp

/-- Builds one parent record from a spec-side group: the parent row mapped by
the parent mapper, then every child row added in order. -/
def applyChildren {P : Type} (fromParent : Row → P) (addChild : P → Row → P)
    (pc : Row × List Row) : P :=
  pc.2.foldl addChild (fromParent pc.1)

/-- The spec's sticky value (spec 4.5): the most recently seen non-blank
value of the given column among the rows, starting from a seed. -/
def lastNonBlankColFrom (colInx : Nat) (seed : String) (rows : List Row) :
    String :=
  rows.foldl
    (fun acc r => if (r.cols.getD colInx "").isEmpty then acc else r.cols.getD colInx "")
    seed

/-- The spec's sticky value with the empty seed. -/
def lastNonBlankCol (colInx : Nat) (rows : List Row) : String :=
  lastNonBlankColFrom colInx "" rows

/-! ## Lemmas about the grouping loop -/

/-- The first row surviving the child-run `dropWhile` is a parent row. -/
theorem dropWhile_head_parent :
    ∀ (l : List Row) (x : Row) (xs : List Row),
      l.dropWhile (fun r => !isParentRow r) = x :: xs → isParentRow x = true := by
  intro l
  induction l with
  | nil => intro x xs h; simp [List.dropWhile] at h
  | cons c cs ih =>
    intro x xs h
    rw [List.dropWhile_cons] at h
    by_cases hc : isParentRow c
    · simp [hc] at h
      exact h.1 ▸ hc
    · simp [hc] at h
      exact ih x xs h

/-- The grouping loop succeeds on any row sequence without zero-column rows. -/
theorem groupFoldAux_isSome {P : Type} (f : Row → P) (g : P → Row → P) :
    ∀ (rows : List Row) (acc : List P), (∀ r ∈ rows, r.cols ≠ []) →
      (groupFoldAux f g rows acc).isSome := by
  intro rows
  induction rows with
  | nil => intro acc _; simp [groupFoldAux]
  | cons r rs ih =>
    intro acc h
    have hr : r.cols ≠ [] := h r (by simp)
    have hrs : ∀ x ∈ rs, x.cols ≠ [] := fun x hx => h x (by simp [hx])
    cases hc : r.cols with
    | nil => exact absurd hc hr
    | cons c0 cr =>
      simp only [groupFoldAux, hc]
      by_cases h0 : c0.isEmpty
      · cases acc with
        | nil => simpa [h0] using ih [] hrs
        | cons p ps => simpa [h0] using ih (g p r :: ps) hrs
      · simpa [h0] using ih (f r :: acc) hrs

/-- A run of child rows (non-parents, each with at least one column) is
absorbed into the most recently pushed parent, in order. -/
theorem groupFoldAux_children {P : Type} (f : Row → P) (g : P → Row → P) :
    ∀ (cs rest : List Row) (p : P) (ps : List P),
      (∀ r ∈ cs, r.cols ≠ [] ∧ isParentRow r = false) →
      groupFoldAux f g (cs ++ rest) (p :: ps) =
        groupFoldAux f g rest (cs.foldl g p :: ps) := by
  intro cs
  induction cs with
  | nil => intro rest p ps _; simp
  | cons c cs ih =>
    intro rest p ps h
    obtain ⟨hne, hpar⟩ := h c (by simp)
    cases hc : c.cols with
    | nil => exact absurd hc hne
    | cons c0 cr =>
      have h0 : c0.isEmpty = true := by
        unfold isParentRow at hpar
        rw [hc] at hpar
        simpa using hpar
      simp only [List.cons_append, groupFoldAux, hc, h0, if_pos, List.foldl_cons]
      exact ih rest (g p c) ps (fun x hx => h x (by simp [hx]))

/-- A run of leading child rows before any parent is silently discarded by
the grouping loop: the children mutate the dangling default parent, which is
never pushed. -/
theorem groupFoldAux_leading_children {P : Type} (f : Row → P) (g : P → Row → P) :
    ∀ (cs rest : List Row),
      (∀ r ∈ cs, r.cols ≠ [] ∧ isParentRow r = false) →
      groupFoldAux f g (cs ++ rest) ([] : List P) =
        groupFoldAux f g rest ([] : List P) := by
  intro cs
  induction cs with
  | nil => intro rest _; simp
  | cons c cs ih =>
    intro rest h
    obtain ⟨hne, hpar⟩ := h c (by simp)
    cases hc : c.cols with
    | nil => exact absurd hc hne
    | cons c0 cr =>
      have h0 : c0.isEmpty = true := by
        unfold isParentRow at hpar
        rw [hc] at hpar
        simpa using hpar
      simp only [List.cons_append, groupFoldAux, hc, h0, if_pos]
      exact ih rest (fun x hx => h x (by simp [hx]))

/-- Refinement of the grouping loop by the spec-side grouping: on a row
sequence without zero-column rows whose first row (if any) is a parent row,
the loop returns exactly the spec groups, each parent built from its row
with its children applied in order, parents in input order after the already
accumulated output. -/
theorem groupFoldAux_groupSpec {P : Type} (f : Row → P) (g : P → Row → P) :
    ∀ (n : Nat) (rows : List Row) (acc : List P), rows.length ≤ n →
      (∀ r ∈ rows, r.cols ≠ []) →
      (∀ r0, rows.head? = some r0 → isParentRow r0 = true) →
      groupFoldAux f g rows acc =
        some (acc.reverse ++ (groupSpec rows).map (applyChildren f g)) := by
  intro n
  induction n with
  | zero =>
    intro rows acc hlen _ _
    have hnil : rows = [] := List.eq_nil_of_length_eq_zero (Nat.le_zero.mp hlen)
    subst hnil
    simp [groupFoldAux, groupSpec]
  | succ n ih =>
    intro rows acc hlen hcols hhead
    cases rows with
    | nil => simp [groupFoldAux, groupSpec]
    | cons r rs =>
      have hpar : isParentRow r = true := hhead r rfl
      cases hc : r.cols with
      | nil => exact absurd hc (hcols r (by simp))
      | cons c0 cr =>
        have h0 : c0.isEmpty = false := by
          unfold isParentRow at hpar
          rw [hc] at hpar
          simpa using hpar
        have hsplit :
            rs.takeWhile (fun x => !isParentRow x) ++
              rs.dropWhile (fun x => !isParentRow x) = rs :=
          List.takeWhile_append_dropWhile _ _
        have hcs : ∀ x ∈ rs.takeWhile (fun x => !isParentRow x),
            x.cols ≠ [] ∧ isParentRow x = false := by
          intro x hx
          refine ⟨hcols x (by simp [(List.takeWhile_sublist _).mem hx]), ?_⟩
          have := List.mem_takeWhile_imp hx
          simpa using this
        have hrest_cols : ∀ x ∈ rs.dropWhile (fun x => !isParentRow x),
            x.cols ≠ [] := by
          intro x hx
          exact hcols x (by simp [(List.dropWhile_sublist _).mem hx])
        have hrest_head : ∀ r0,
            (rs.dropWhile (fun x => !isParentRow x)).head? = some r0 →
            isParentRow r0 = true := by
          intro r0 hh
          cases hd : rs.dropWhile (fun x => !isParentRow x) with
          | nil => rw [hd] at hh; simp at hh
          | cons a b =>
            rw [hd] at hh
            simp at hh
            exact hh ▸ dropWhile_head_parent rs a b hd
        have hlen' : (rs.dropWhile (fun x => !isParentRow x)).length ≤ n := by
          have h1 := (List.dropWhile_sublist (l := rs) (fun x => !isParentRow x)).length_le
          simp only [List.length_cons] at hlen
          omega
        have hgs : groupSpec (r :: rs) =
            (r, rs.takeWhile (fun x => !isParentRow x)) ::
              groupSpec (rs.dropWhile (fun x => !isParentRow x)) := by
          rw [groupSpec]
          simp [hpar]
        have step1 : groupFoldAux f g rs (f r :: acc) =
            groupFoldAux f g
              (rs.takeWhile (fun x => !isParentRow x) ++
                rs.dropWhile (fun x => !isParentRow x)) (f r :: acc) := by
          rw [hsplit]
        simp only [groupFoldAux, hc, h0, Bool.false_eq_true, if_false]
        rw [step1, groupFoldAux_children f g _ _ (f r) acc hcs,
          ih _ (_ :: acc) hlen' hrest_cols hrest_head, hgs]
        simp [applyChildren]

/-! ## Lemmas about the sticky detection loop -/

/-- One step of the sticky seed. -/
theorem lastNonBlankColFrom_cons (colInx : Nat) (seed : String) (r : Row)
    (l : List Row) :
    lastNonBlankColFrom colInx seed (r :: l) =
      lastNonBlankColFrom colInx
        (if (r.cols.getD colInx "").isEmpty then seed else r.cols.getD colInx "")
        l := by
  simp [lastNonBlankColFrom]

/-- The sticky loop succeeds on any row sequence whose rows all have at
least two columns. -/
theorem detectionsAux_isSome :
    ∀ (rows : List Row) (base_id base_data_source : String),
      (∀ r ∈ rows, 2 ≤ r.cols.length) →
      (Techniques.detectionsAux base_id base_data_source rows).isSome := by
  intro rows
  induction rows with
  | nil => intro bi bs _; simp [Techniques.detectionsAux]
  | cons r rs ih =>
    intro bi bs h
    have hr := h r (by simp)
    match hc : r.cols with
    | [] => rw [hc] at hr; simp at hr
    | [c0] => rw [hc] at hr; simp at hr
    | c0 :: c1 :: cr =>
      have hrec := ih (if c0.isEmpty then bi else c0) (if c1.isEmpty then bs else c1)
        (fun x hx => h x (by simp [hx]))
      simp only [Techniques.detectionsAux, hc] at hrec ⊢
      cases hres : Techniques.detectionsAux (if c0.isEmpty then bi else c0)
          (if c1.isEmpty then bs else c1) rs with
      | none => rw [hres] at hrec; simp at hrec
      | some l => simp [hres]

/-- The sticky loop, characterized row by row: it succeeds, preserves the
row count, and the k-th produced detection carries as id and data-source the
most recently seen non-blank column-0 and column-1 values among the first
k+1 rows (seeded by the running base values), while its data-component and
detects fields are those of the k-th row's own mapping. -/
theorem detectionsAux_spec :
    ∀ (rows : List Row) (base_id base_data_source : String),
      (∀ r ∈ rows, 2 ≤ r.cols.length) →
      ∃ l, Techniques.detectionsAux base_id base_data_source rows = some l ∧
        l.length = rows.length ∧
        ∀ (k : Nat) (r : Row), rows.get? k = some r →
          ∃ d, l.get? k = some d ∧
            d.id = lastNonBlankColFrom 0 base_id (rows.take (k + 1)) ∧
            d.data_source =
              lastNonBlankColFrom 1 base_data_source (rows.take (k + 1)) ∧
            d.data_comp = (Techniques.DetectionRow.fromRow r).data_comp ∧
            d.detects = (Techniques.DetectionRow.fromRow r).detects := by
  intro rows
  induction rows with
  | nil =>
    intro bi bs _
    refine ⟨[], by simp [Techniques.detectionsAux], by simp, ?_⟩
    intro k r h
    simp at h
  | cons r rs ih =>
    intro bi bs h
    have hr := h r (by simp)
    match hc : r.cols with
    | [] => rw [hc] at hr; simp at hr
    | [c0] => rw [hc] at hr; simp at hr
    | c0 :: c1 :: cr =>
      obtain ⟨l', hl', hlen', hspec'⟩ :=
        ih (if c0.isEmpty then bi else c0) (if c1.isEmpty then bs else c1)
          (fun x hx => h x (by simp [hx]))
      refine ⟨{ Techniques.DetectionRow.fromRow r with
          id := if c0.isEmpty then bi else c0
          data_source := if c1.isEmpty then bs else c1 } :: l', ?_, ?_, ?_⟩
      · simp only [Techniques.detectionsAux, hc, List.get?_cons_zero,
          List.get?_cons_succ]
        rw [hl']
      · simpa using hlen'
      · intro k x hx
        cases k with
        | zero =>
          simp at hx
          subst hx
          refine ⟨_, rfl, ?_, ?_, rfl, rfl⟩
          · rw [List.take_succ_cons, lastNonBlankColFrom_cons]
            simp [lastNonBlankColFrom, hc]
          · rw [List.take_succ_cons, lastNonBlankColFrom_cons]
            simp [lastNonBlankColFrom, hc]
        | succ k =>
          simp only [List.get?_cons_succ] at hx
          obtain ⟨d, hd, h1, h2, h3, h4⟩ := hspec' k x hx
          refine ⟨d, by simpa using hd, ?_, ?_, h3, h4⟩
          · rw [List.take_succ_cons, lastNonBlankColFrom_cons, h1, hc]
            simp
          · rw [List.take_succ_cons, lastNonBlankColFrom_cons, h2, hc]
            simp

/-! ## Lemmas about the footnote-reference stripper -/

/-- No two consecutive space characters occur in the list. -/
def noDoubleSpace : List Char → Bool
  | c1 :: c2 :: rest => !(c1 == ' ' && c2 == ' ') && noDoubleSpace (c2 :: rest)
  | _ => true

/-- An ASCII digit is not a closing bracket. -/
theorem isDigit_ne_rbracket {c : Char} (h : c.isDigit = true) :
    (c == ']') = false := by
  cases hb : c == ']'
  · rfl
  · have hc : c = ']' := by exact beq_iff_eq.mp hb
    subst hc
    simp [Char.isDigit] at h

/-- An ASCII digit is not an opening bracket. -/
theorem isDigit_ne_lbracket {c : Char} (h : c.isDigit = true) :
    (c == '[') = false := by
  cases hb : c == '['
  · rfl
  · have hc : c = '[' := by exact beq_iff_eq.mp hb
    subst hc
    simp [Char.isDigit] at h

/-- While a candidate is pending, a digit run followed by a closing bracket
is consumed and dropped. -/
theorem stripRefsAux_digits :
    ∀ (ds : List Char) (post : List Char) (b : Char) (bs : List Char),
      ds ≠ [] → (∀ c ∈ ds, c.isDigit = true) →
      stripRefsAux (ds ++ ']' :: post) (b :: bs) = stripRefsAux post [] := by
  intro ds
  induction ds with
  | nil => intro post b bs hne _; exact absurd rfl hne
  | cons d ds ih =>
    intro post b bs _ hdig
    have hd : d.isDigit = true := hdig d (by simp)
    cases ds with
    | nil =>
      simp only [List.cons_append, List.nil_append, stripRefsAux,
        isDigit_ne_rbracket hd, isDigit_ne_lbracket hd, hd]
      simp [stripRefsAux]
    | cons d2 ds2 =>
      have step : stripRefsAux ((d :: d2 :: ds2) ++ ']' :: post) (b :: bs) =
          stripRefsAux ((d2 :: ds2) ++ ']' :: post) (d :: b :: bs) := by
        simp [stripRefsAux, isDigit_ne_rbracket hd, isDigit_ne_lbracket hd, hd]
      rw [step]
      exact ih post d (b :: bs) (by simp) (fun c hc => hdig c (by simp [hc]))

/-- The scanner deletes a reference `[digits]` standing at the scan point. -/
theorem stripRefs_removes (ds post : List Char) (hne : ds ≠ [])
    (hdig : ∀ c ∈ ds, c.isDigit = true) :
    stripRefs ('[' :: (ds ++ ']' :: post)) = stripRefs post := by
  have h1 : stripRefs ('[' :: (ds ++ ']' :: post)) =
      stripRefsAux (ds ++ ']' :: post) ['['] := by
    simp [stripRefs, stripRefsAux]
  rw [h1, stripRefsAux_digits ds post '[' [] hne hdig]
  rfl

/-- Every token produced by the whitespace splitter is non-empty and free of
whitespace characters, provided the pending token is. -/
theorem splitWsAux_tokens :
    ∀ (l : List Char) (cur : List Char),
      (∀ c ∈ cur, rustIsWhitespace c = false) →
      ∀ t ∈ splitWsAux l cur, t ≠ [] ∧ ∀ c ∈ t, rustIsWhitespace c = false := by
  intro l
  induction l with
  | nil =>
    intro cur hcur t ht
    by_cases hc : cur.isEmpty
    · simp [splitWsAux, hc] at ht
    · simp [splitWsAux, hc] at ht
      subst ht
      constructor
      · simpa [List.isEmpty_iff] using hc
      · intro c hcm
        exact hcur c (by simpa using hcm)
  | cons c cs ih =>
    intro cur hcur t ht
    by_cases hw : rustIsWhitespace c
    · by_cases hc : cur.isEmpty
      · rw [splitWsAux] at ht
        simp only [hw, hc, if_true] at ht
        exact ih [] (by simp) t ht
      · rw [splitWsAux] at ht
        simp only [hw, hc, if_true, if_false] at ht
        rcases List.mem_cons.mp ht with h1 | h2
        · subst h1
          constructor
          · simpa [List.isEmpty_iff] using hc
          · intro x hx
            exact hcur x (by simpa using hx)
        · exact ih [] (by simp) t h2
    · rw [splitWsAux] at ht
      simp only [hw, if_false] at ht
      refine ih (c :: cur) ?_ t ht
      intro x hx
      rcases List.mem_cons.mp hx with h1 | h2
      · subst h1; simpa using hw
      · exact hcur x h2

/-- Prepending characters that are not spaces preserves absence of double
spaces. -/
theorem noDoubleSpace_prepend :
    ∀ (t rest : List Char), (∀ c ∈ t, c ≠ ' ') → noDoubleSpace rest = true →
      noDoubleSpace (t ++ rest) = true := by
  intro t
  induction t with
  | nil => intro rest _ h; simpa using h
  | cons c t ih =>
    intro rest hchar hrest
    have hc : c ≠ ' ' := hchar c (by simp)
    have htail : noDoubleSpace (t ++ rest) = true :=
      ih rest (fun x hx => hchar x (by simp [hx])) hrest
    cases hsplit : t ++ rest with
    | nil => rw [List.cons_append, hsplit]; simp [noDoubleSpace]
    | cons d r =>
      have hcb : (c == ' ') = false := by
        cases hb : c == ' '
        · rfl
        · exact absurd (beq_iff_eq.mp hb) hc
      rw [List.cons_append, hsplit]
      simp only [noDoubleSpace, hcb, Bool.false_and, Bool.not_false,
        Bool.true_and]
      rw [← hsplit]
      exact htail

/-- Joining non-empty space-free tokens with single spaces yields a list
without consecutive spaces, and its first character is never a space. -/
theorem joinWith_noDoubleSpace :
    ∀ (tokens : List (List Char)),
      (∀ t ∈ tokens, t ≠ [] ∧ ∀ c ∈ t, c ≠ ' ') →
      noDoubleSpace (joinWith ' ' tokens) = true ∧
        ∀ c, (joinWith ' ' tokens).head? = some c → c ≠ ' ' := by
  intro tokens
  induction tokens with
  | nil => intro _; simp [joinWith, noDoubleSpace]
  | cons t ts ih =>
    intro h
    obtain ⟨htne, htchar⟩ := h t (by simp)
    cases ts with
    | nil =>
      constructor
      · simpa using noDoubleSpace_prepend t [] htchar (by simp [noDoubleSpace])
      · intro c hc
        cases t with
        | nil => exact absurd rfl htne
        | cons a t' =>
          simp [joinWith] at hc
          exact hc ▸ htchar a (by simp)
    | cons u us =>
      obtain ⟨hnds, hhead⟩ := ih (fun x hx => h x (by simp [hx]))
      have hJ : noDoubleSpace (' ' :: joinWith ' ' (u :: us)) = true := by
        cases hj : joinWith ' ' (u :: us) with
        | nil => simp [noDoubleSpace]
        | cons d r =>
          have hd : d ≠ ' ' := hhead d (by simp [hj])
          have hdb : (d == ' ') = false := by
            cases hb : d == ' '
            · rfl
            · exact absurd (beq_iff_eq.mp hb) hd
          simp only [noDoubleSpace, hdb, Bool.and_false, Bool.not_false,
            Bool.true_and]
          rw [← hj]
          exact hnds
      have hjoin : joinWith ' ' (t :: u :: us) =
          t ++ ' ' :: joinWith ' ' (u :: us) := by
        simp [joinWith]
      constructor
      · rw [hjoin]
        exact noDoubleSpace_prepend t _ htchar hJ
      · intro c hc
        rw [hjoin] at hc
        cases t with
        | nil => exact absurd rfl htne
        | cons a t' =>
          simp at hc
          exact hc ▸ htchar a (by simp)

/-- The re-joined output of `remove_ext_link_ref` never contains two
consecutive spaces. -/
theorem remove_ext_link_ref_noDoubleSpace (s : String) :
    noDoubleSpace (remove_ext_link_ref s).data = true := by
  have h := joinWith_noDoubleSpace
    ((split_whitespace (stripRefs s.data)).filter (fun t => !t.isEmpty)) ?_
  · exact h.1
  · intro t ht
    have ht' : t ∈ split_whitespace (stripRefs s.data) :=
      List.mem_of_mem_filter ht
    obtain ⟨hne, hchar⟩ :=
      splitWsAux_tokens (stripRefs s.data) [] (by simp) t ht'
    refine ⟨hne, ?_⟩
    intro c hc hsp
    have := hchar c hc
    rw [hsp] at this
    simp [rustIsWhitespace] at this

/-! ## Claim theorems -/

/-- C8: `remove_ext_link_ref` removes every `[digits]` substring reached by
the scan, re-joins the remaining whitespace-delimited tokens with single
spaces (the output never contains two consecutive spaces), never fails (it
is a total function), maps empty input to empty output, and maps
`"Uses PsExec[1][2] for lateral movement"` to exactly
`"Uses PsExec for lateral movement"`. -/
theorem c8_remove_ext_link_ref_behavior :
    remove_ext_link_ref "" = "" ∧
    remove_ext_link_ref "Uses PsExec[1][2] for lateral movement" =
      "Uses PsExec for lateral movement" ∧
    (∀ ds post : List Char, ds ≠ [] → (∀ c ∈ ds, c.isDigit = true) →
      stripRefs ('[' :: (ds ++ ']' :: post)) = stripRefs post) ∧
    (∀ s : String, noDoubleSpace (remove_ext_link_ref s).data = true) :=
  ⟨rfl, rfl, stripRefs_removes, remove_ext_link_ref_noDoubleSpace⟩

/-- Witness for C8 at concrete inputs. -/
theorem c8_witness :
    remove_ext_link_ref "Uses PsExec[1][2] for lateral movement" =
      "Uses PsExec for lateral movement" ∧
    stripRefs ('[' :: (['1'] ++ ']' :: ['a'])) = stripRefs ['a'] ∧
    noDoubleSpace (remove_ext_link_ref "a  b[3]").data = true :=
  ⟨c8_remove_ext_link_ref_behavior.2.1,
   c8_remove_ext_link_ref_behavior.2.2.1 ['1'] ['a'] (by decide) (by decide),
   c8_remove_ext_link_ref_behavior.2.2.2 "a  b[3]"⟩

/-- C5: in both running-cursor mappers, after the base id is read the next
column is peeked; a dot-prefixed value is appended to the base id with no
separator and consumes a slot, while any other value leaves the id
unmodified and is re-read as the name; with base id `T1548` and next column
`.002` the produced id is exactly `T1548.002`. -/
theorem c5_compound_id (d i s n u : String) :
    (startsWithDot s = true →
      Techniques.Domain.DomainTechniqueRow.fromRow ⟨[d, i, s, n, u]⟩ =
        { domain := d, id := i ++ s, name := n,
          used_for := normalizeUsedFor u } ∧
      DataSources.DetectionRow.fromRow ⟨[d, i, s, n, u]⟩ =
        { domain := d, id := i ++ s, name := n,
          detects := remove_ext_link_ref u }) ∧
    (startsWithDot s = false →
      Techniques.Domain.DomainTechniqueRow.fromRow ⟨[d, i, s, n]⟩ =
        { domain := d, id := i, name := s,
          used_for := normalizeUsedFor n } ∧
      DataSources.DetectionRow.fromRow ⟨[d, i, s, n]⟩ =
        { domain := d, id := i, name := s,
          detects := remove_ext_link_ref n }) ∧
    (Techniques.Domain.DomainTechniqueRow.fromRow
        ⟨["enterprise", "T1548", ".002", "Abuse Elevation", "x"]⟩).id =
      "T1548.002" := by
  refine ⟨?_, ?_, rfl⟩
  · intro h
    constructor
    · simp [Techniques.Domain.DomainTechniqueRow.fromRow, Row.get_col, h]
    · simp [DataSources.DetectionRow.fromRow, Row.get_col, h]
  · intro h
    constructor
    · simp [Techniques.Domain.DomainTechniqueRow.fromRow, Row.get_col, h]
    · simp [DataSources.DetectionRow.fromRow, Row.get_col, h]

/-- Witness for C5 at concrete inputs. -/
theorem c5_witness :
    (Techniques.Domain.DomainTechniqueRow.fromRow
        ⟨["enterprise", "T1548", ".002", "Abuse Elevation", "x"]⟩ =
      { domain := "enterprise", id := "T1548" ++ ".002",
        name := "Abuse Elevation", used_for := normalizeUsedFor "x" } ∧
     DataSources.DetectionRow.fromRow
        ⟨["enterprise", "T1548", ".002", "Abuse Elevation", "x"]⟩ =
      { domain := "enterprise", id := "T1548" ++ ".002",
        name := "Abuse Elevation", detects := remove_ext_link_ref "x" }) ∧
    (Techniques.Domain.DomainTechniqueRow.fromRow
        ⟨["enterprise", "T1548", "Abuse Elevation", "x"]⟩ =
      { domain := "enterprise", id := "T1548", name := "Abuse Elevation",
        used_for := normalizeUsedFor "x" } ∧
     DataSources.DetectionRow.fromRow
        ⟨["enterprise", "T1548", "Abuse Elevation", "x"]⟩ =
      { domain := "enterprise", id := "T1548", name := "Abuse Elevation",
        detects := remove_ext_link_ref "x" }) :=
  ⟨(c5_compound_id "enterprise" "T1548" ".002" "Abuse Elevation" "x").1
      (by decide),
   (c5_compound_id "enterprise" "T1548" "Abuse Elevation" "x" "").2.1
      (by decide)⟩

/-- C3 counterexample: a 3-column row `(id, name, description)` does NOT map
to the same field names as a 4-column `(domain, id, name, description)` row:
the cursor mappers consume the first column as the domain whenever the slot
exists, so the id lands in the domain field. -/
theorem c3_counterexample :
    Techniques.Domain.DomainTechniqueRow.fromRow
        ⟨["M1036", "Update Software", "Keep systems updated."]⟩ =
      { domain := "M1036", id := "Update Software",
        name := "Keep systems updated.", used_for := "" } ∧
    (Techniques.Domain.DomainTechniqueRow.fromRow
        ⟨["M1036", "Update Software", "Keep systems updated."]⟩).id ≠
      "M1036" ∧
    DataSources.DetectionRow.fromRow
        ⟨["M1036", "Update Software", "Keep systems updated."]⟩ =
      { domain := "M1036", id := "Update Software",
        name := "Keep systems updated.",
        detects := remove_ext_link_ref "" } := by
  refine ⟨rfl, by decide, rfl⟩

/-- C3 amended: the cursor mappers advance past the domain slot exactly when
the slot exists in the row (even when its value is empty); rows short at the
end leave the remaining fields at their defaults.  In particular a 3-column
row binds its first column to the domain field, its second to the id and its
third to the name, unlike a 4-column row. -/
theorem c3_domain_cursor :
    (∀ (c0 : String) (cs : List String),
      (Techniques.Domain.DomainTechniqueRow.fromRow ⟨c0 :: cs⟩).domain = c0 ∧
      (DataSources.DetectionRow.fromRow ⟨c0 :: cs⟩).domain = c0) ∧
    (Techniques.Domain.DomainTechniqueRow.fromRow ⟨[]⟩ =
      { domain := "", id := "", name := "", used_for := "" }) ∧
    (∀ i n u : String, startsWithDot u = false →
      Techniques.Domain.DomainTechniqueRow.fromRow ⟨[i, n, u]⟩ =
        { domain := i, id := n, name := u, used_for := "" } ∧
      DataSources.DetectionRow.fromRow ⟨[i, n, u]⟩ =
        { domain := i, id := n, name := u, detects := "" }) ∧
    (∀ d i n u : String, startsWithDot n = false →
      Techniques.Domain.DomainTechniqueRow.fromRow ⟨[d, i, n, u]⟩ =
        { domain := d, id := i, name := n,
          used_for := normalizeUsedFor u }) := by
  refine ⟨?_, rfl, ?_, ?_⟩
  · intro c0 cs
    constructor
    · simp [Techniques.Domain.DomainTechniqueRow.fromRow, Row.get_col]
    · simp [DataSources.DetectionRow.fromRow, Row.get_col]
  · intro i n u h
    constructor
    · simp [Techniques.Domain.DomainTechniqueRow.fromRow, Row.get_col, h]
    · simp [DataSources.DetectionRow.fromRow, Row.get_col, h]
  · intro d i n u h
    simp [Techniques.Domain.DomainTechniqueRow.fromRow, Row.get_col, h]

/-- Witness for C3 (amended) at concrete inputs. -/
theorem c3_witness :
    (Techniques.Domain.DomainTechniqueRow.fromRow
        ⟨["M1036", "Update Software", "Keep systems updated."]⟩ =
      { domain := "M1036", id := "Update Software",
        name := "Keep systems updated.", used_for := "" } ∧
     DataSources.DetectionRow.fromRow
        ⟨["M1036", "Update Software", "Keep systems updated."]⟩ =
      { domain := "M1036", id := "Update Software",
        name := "Keep systems updated.", detects := "" }) ∧
    Techniques.Domain.DomainTechniqueRow.fromRow
        ⟨["Enterprise", "T1110", "Brute Force", "x"]⟩ =
      { domain := "Enterprise", id := "T1110", name := "Brute Force",
        used_for := normalizeUsedFor "x" } :=
  ⟨c3_domain_cursor.2.2.1 "M1036" "Update Software" "Keep systems updated."
      (by decide),
   c3_domain_cursor.2.2.2 "Enterprise" "T1110" "Brute Force" "x" (by decide)⟩

/-- C1 counterexample: a table whose first row is a child row (empty marker
column) raises no failure in any of the three grouping conversions: the
conversion returns a value in which the leading child rows have been
silently dropped (they were attached to the discarded default parent), so
the claimed fail-fast behavior does not hold. -/
theorem c1_counterexample :
    Techniques.TechniquesTable.fromTable
        ⟨[], [⟨["", ".001", "S", "D"]⟩, ⟨["T1", "N", "Dd"]⟩]⟩ =
      some ⟨[{ id := "T1", name := "N", description := "Dd" }]⟩ ∧
    Techniques.Domain.DomainTechniquesTable.fromTable
        ⟨[], [⟨["", "", ".001", "S", "U"]⟩]⟩ = some ⟨[]⟩ ∧
    DataSources.DetectionsTable.fromTable
        ⟨[], [⟨["", "", ".001", "S", "U"]⟩]⟩ = some ⟨[]⟩ :=
  ⟨rfl, rfl, rfl⟩

/-- C1 amended: on a row sequence beginning with a run of child rows (each
with at least one column and an empty marker column), the three grouping
conversions raise no failure and fabricate no parent: the leading child rows
are attached to a discarded default parent, i.e. the result is exactly the
conversion of the remaining rows. -/
theorem c1_leading_children_dropped (hdrs : List String)
    (crows rest : List Row)
    (h : ∀ r ∈ crows, r.cols ≠ [] ∧ isParentRow r = false) :
    Techniques.TechniquesTable.fromTable ⟨hdrs, crows ++ rest⟩ =
      Techniques.TechniquesTable.fromTable ⟨hdrs, rest⟩ ∧
    Techniques.Domain.DomainTechniquesTable.fromTable ⟨hdrs, crows ++ rest⟩ =
      Techniques.Domain.DomainTechniquesTable.fromTable ⟨hdrs, rest⟩ ∧
    DataSources.DetectionsTable.fromTable ⟨hdrs, crows ++ rest⟩ =
      DataSources.DetectionsTable.fromTable ⟨hdrs, rest⟩ := by
  refine ⟨?_, ?_, ?_⟩
  · simp only [Techniques.TechniquesTable.fromTable, groupFold]
    rw [groupFoldAux_leading_children _ _ crows rest h]
  · simp only [Techniques.Domain.DomainTechniquesTable.fromTable, groupFold]
    rw [groupFoldAux_leading_children _ _ crows rest h]
  · simp only [DataSources.DetectionsTable.fromTable, groupFold]
    rw [groupFoldAux_leading_children _ _ crows rest h]

/-- Witness for C1 (amended) at a concrete table. -/
theorem c1_witness :
    Techniques.TechniquesTable.fromTable
        ⟨[], [⟨["", ".001", "S", "D"]⟩] ++ [⟨["T1", "N", "Dd"]⟩]⟩ =
      Techniques.TechniquesTable.fromTable ⟨[], [⟨["T1", "N", "Dd"]⟩]⟩ ∧
    Techniques.Domain.DomainTechniquesTable.fromTable
        ⟨[], [⟨["", ".001", "S", "D"]⟩] ++ [⟨["T1", "N", "Dd"]⟩]⟩ =
      Techniques.Domain.DomainTechniquesTable.fromTable
        ⟨[], [⟨["T1", "N", "Dd"]⟩]⟩ ∧
    DataSources.DetectionsTable.fromTable
        ⟨[], [⟨["", ".001", "S", "D"]⟩] ++ [⟨["T1", "N", "Dd"]⟩]⟩ =
      DataSources.DetectionsTable.fromTable ⟨[], [⟨["T1", "N", "Dd"]⟩]⟩ :=
  c1_leading_children_dropped [] [⟨["", ".001", "S", "D"]⟩]
    [⟨["T1", "N", "Dd"]⟩] (by decide)

/-- C4: on a row sequence without zero-column rows whose first row (if any)
is a parent row, each of the three grouping conversions returns exactly the
spec-side grouping: a new parent exactly for each row with non-empty marker
column, every child row folded into the parent that most recently precedes
it, parents in input order, each parent's children in input order, and only
two levels (children are plain child records by construction of
`applyChildren`). -/
theorem c4_grouping_refinement (t : Table)
    (h1 : ∀ r ∈ t.rows, r.cols ≠ [])
    (h2 : ∀ r0, t.rows.head? = some r0 → isParentRow r0 = true) :
    Techniques.TechniquesTable.fromTable t =
      some ⟨(groupSpec t.rows).map
        (applyChildren Techniques.TechniqueRow.fromRow
          (fun p r => p.add_subtechnique (Techniques.SubTechniqueRow.fromRow r)))⟩ ∧
    Techniques.Domain.DomainTechniquesTable.fromTable t =
      some ⟨(groupSpec t.rows).map
        (applyChildren Techniques.Domain.DomainTechniqueRow.fromRow
          (fun p r =>
            p.add_sub_technique (Techniques.Domain.DomainSubTechniqueRow.fromRow r)))⟩ ∧
    DataSources.DetectionsTable.fromTable t =
      some ⟨(groupSpec t.rows).map
        (applyChildren DataSources.DetectionRow.fromRow
          (fun p r => p.add_subdetection (DataSources.SubDetectionRow.fromRow r)))⟩ := by
  refine ⟨?_, ?_, ?_⟩
  · simp only [Techniques.TechniquesTable.fromTable, groupFold]
    rw [groupFoldAux_groupSpec _ _ t.rows.length t.rows [] (Nat.le_refl _) h1 h2]
    simp
  · simp only [Techniques.Domain.DomainTechniquesTable.fromTable, groupFold]
    rw [groupFoldAux_groupSpec _ _ t.rows.length t.rows [] (Nat.le_refl _) h1 h2]
    simp
  · simp only [DataSources.DetectionsTable.fromTable, groupFold]
    rw [groupFoldAux_groupSpec _ _ t.rows.length t.rows [] (Nat.le_refl _) h1 h2]
    simp

/-- Witness for C4 at a concrete table. -/
theorem c4_witness :
    Techniques.TechniquesTable.fromTable
        ⟨[], [⟨["T1", "N", "D"]⟩, ⟨["", ".001", "S", "Dd"]⟩]⟩ =
      some ⟨(groupSpec [⟨["T1", "N", "D"]⟩, ⟨["", ".001", "S", "Dd"]⟩]).map
        (applyChildren Techniques.TechniqueRow.fromRow
          (fun p r => p.add_subtechnique (Techniques.SubTechniqueRow.fromRow r)))⟩ ∧
    Techniques.Domain.DomainTechniquesTable.fromTable
        ⟨[], [⟨["T1", "N", "D"]⟩, ⟨["", ".001", "S", "Dd"]⟩]⟩ =
      some ⟨(groupSpec [⟨["T1", "N", "D"]⟩, ⟨["", ".001", "S", "Dd"]⟩]).map
        (applyChildren Techniques.Domain.DomainTechniqueRow.fromRow
          (fun p r =>
            p.add_sub_technique (Techniques.Domain.DomainSubTechniqueRow.fromRow r)))⟩ ∧
    DataSources.DetectionsTable.fromTable
        ⟨[], [⟨["T1", "N", "D"]⟩, ⟨["", ".001", "S", "Dd"]⟩]⟩ =
      some ⟨(groupSpec [⟨["T1", "N", "D"]⟩, ⟨["", ".001", "S", "Dd"]⟩]).map
        (applyChildren DataSources.DetectionRow.fromRow
          (fun p r => p.add_subdetection (DataSources.SubDetectionRow.fromRow r)))⟩ :=
  c4_grouping_refinement ⟨[], [⟨["T1", "N", "D"]⟩, ⟨["", ".001", "S", "Dd"]⟩]⟩
    (by decide) (by decide)

/-- C10: the grouping conversions and the sticky detection conversion read
`cols[0]` (and `cols[1]`) without a bounds guard, so they are total exactly
under the precondition that every row has at least one (respectively two)
columns; the table extractor turns a cell-less body row into a zero-column
`Row`, and on such a scraped table the unguarded index's error branch is
reached (the embedded conversion returns `none`, the panic). -/
theorem c10_unguarded_marker_read :
    (∀ t : Table, (∀ r ∈ t.rows, r.cols ≠ []) →
      (Techniques.TechniquesTable.fromTable t).isSome ∧
      (Techniques.Domain.DomainTechniquesTable.fromTable t).isSome ∧
      (DataSources.DetectionsTable.fromTable t).isSome) ∧
    (∀ t : Table, (∀ r ∈ t.rows, 2 ≤ r.cols.length) →
      (Techniques.detectionsTableFromTable t).isSome) ∧
    (scrape_table ⟨[], [["T1", "N", "D"], []]⟩).rows =
      [⟨["T1", "N", "D"]⟩, ⟨[]⟩] ∧
    Techniques.TechniquesTable.fromTable
      (scrape_table ⟨[], [["T1", "N", "D"], []]⟩) = none ∧
    Techniques.Domain.DomainTechniquesTable.fromTable
      (scrape_table ⟨[], [["T1", "N", "D"], []]⟩) = none ∧
    DataSources.DetectionsTable.fromTable
      (scrape_table ⟨[], [["T1", "N", "D"], []]⟩) = none ∧
    Techniques.detectionsTableFromTable ⟨[], [⟨["DS1"]⟩]⟩ = none := by
  refine ⟨?_, ?_, rfl, rfl, rfl, rfl, rfl⟩
  · intro t h
    refine ⟨?_, ?_, ?_⟩
    · obtain ⟨v, hv⟩ := Option.isSome_iff_exists.mp
        (groupFoldAux_isSome Techniques.TechniqueRow.fromRow
          (fun p r => p.add_subtechnique (Techniques.SubTechniqueRow.fromRow r))
          t.rows [] h)
      simp [Techniques.TechniquesTable.fromTable, groupFold, hv]
    · obtain ⟨v, hv⟩ := Option.isSome_iff_exists.mp
        (groupFoldAux_isSome Techniques.Domain.DomainTechniqueRow.fromRow
          (fun p r =>
            p.add_sub_technique (Techniques.Domain.DomainSubTechniqueRow.fromRow r))
          t.rows [] h)
      simp [Techniques.Domain.DomainTechniquesTable.fromTable, groupFold, hv]
    · obtain ⟨v, hv⟩ := Option.isSome_iff_exists.mp
        (groupFoldAux_isSome DataSources.DetectionRow.fromRow
          (fun p r => p.add_subdetection (DataSources.SubDetectionRow.fromRow r))
          t.rows [] h)
      simp [DataSources.DetectionsTable.fromTable, groupFold, hv]
  · intro t h
    by_cases he : t.is_empty
    · simp [Techniques.detectionsTableFromTable, he]
    · obtain ⟨v, hv⟩ := Option.isSome_iff_exists.mp
        (detectionsAux_isSome t.rows "" "" h)
      simp [Techniques.detectionsTableFromTable, he, hv]

/-- Witness for C10 at concrete tables. -/
theorem c10_witness :
    ((Techniques.TechniquesTable.fromTable ⟨[], [⟨["T1", "N", "D"]⟩]⟩).isSome ∧
     (Techniques.Domain.DomainTechniquesTable.fromTable
        ⟨[], [⟨["T1", "N", "D"]⟩]⟩).isSome ∧
     (DataSources.DetectionsTable.fromTable ⟨[], [⟨["T1", "N", "D"]⟩]⟩).isSome) ∧
    (Techniques.detectionsTableFromTable ⟨[], [⟨["DS1", "S", "C", "X"]⟩]⟩).isSome :=
  ⟨c10_unguarded_marker_read.1 ⟨[], [⟨["T1", "N", "D"]⟩]⟩ (by decide),
   c10_unguarded_marker_read.2.1 ⟨[], [⟨["DS1", "S", "C", "X"]⟩]⟩ (by decide)⟩

/-- C6: in the technique detection-table conversion the id (column 0) and
data-source (column 1) are sticky: every produced row carries the most
recently seen non-blank value of those columns (a non-blank value
establishes the new sticky value, rows are counted one-to-one), while
data-component and detects come from the row's own mapping; in particular on
`["DS0026","Source A","Comp1","detects X"]`, `["","","Comp2","detects Y"]`
the second output row inherits `"DS0026"` and `"Source A"`. -/
theorem c6_sticky_columns :
    (∀ t : Table, (∀ r ∈ t.rows, 2 ≤ r.cols.length) → t.rows ≠ [] →
      ∃ l, Techniques.detectionsTableFromTable t = some (some ⟨l⟩) ∧
        l.length = t.rows.length ∧
        ∀ (k : Nat) (r : Row), t.rows.get? k = some r →
          ∃ d, l.get? k = some d ∧
            d.id = lastNonBlankCol 0 (t.rows.take (k + 1)) ∧
            d.data_source = lastNonBlankCol 1 (t.rows.take (k + 1)) ∧
            d.data_comp = (Techniques.DetectionRow.fromRow r).data_comp ∧
            d.detects = (Techniques.DetectionRow.fromRow r).detects) ∧
    Techniques.detectionsTableFromTable
        ⟨[], [⟨["DS0026", "Source A", "Comp1", "detects X"]⟩,
              ⟨["", "", "Comp2", "detects Y"]⟩]⟩ =
      some (some ⟨[
        { id := "DS0026", data_source := "Source A", data_comp := "Comp1",
          detects := some "detects X" },
        { id := "DS0026", data_source := "Source A", data_comp := "Comp2",
          detects := some "detects Y" }]⟩) := by
  constructor
  · intro t h hne
    obtain ⟨l, hl, hlen, hsp⟩ := detectionsAux_spec t.rows "" "" h
    refine ⟨l, ?_, hlen, ?_⟩
    · simp only [Techniques.detectionsTableFromTable, Table.is_empty]
      rw [if_neg (by simpa [List.isEmpty_iff] using hne), hl]
      rfl
    · intro k r hk
      simpa [lastNonBlankCol] using hsp k r hk
  · rfl

/-- Witness for C6 at the concrete row pair of the claim. -/
theorem c6_witness :
    ∃ l, Techniques.detectionsTableFromTable
        ⟨[], [⟨["DS0026", "Source A", "Comp1", "detects X"]⟩,
              ⟨["", "", "Comp2", "detects Y"]⟩]⟩ = some (some ⟨l⟩) ∧
      l.length = 2 ∧
      ∀ (k : Nat) (r : Row),
        [⟨["DS0026", "Source A", "Comp1", "detects X"]⟩,
         (⟨["", "", "Comp2", "detects Y"]⟩ : Row)].get? k = some r →
        ∃ d, l.get? k = some d ∧
          d.id = lastNonBlankCol 0
            ([⟨["DS0026", "Source A", "Comp1", "detects X"]⟩,
              (⟨["", "", "Comp2", "detects Y"]⟩ : Row)].take (k + 1)) ∧
          d.data_source = lastNonBlankCol 1
            ([⟨["DS0026", "Source A", "Comp1", "detects X"]⟩,
              (⟨["", "", "Comp2", "detects Y"]⟩ : Row)].take (k + 1)) ∧
          d.data_comp = (Techniques.DetectionRow.fromRow r).data_comp ∧
          d.detects = (Techniques.DetectionRow.fromRow r).detects :=
  c6_sticky_columns.1
    ⟨[], [⟨["DS0026", "Source A", "Comp1", "detects X"]⟩,
          ⟨["", "", "Comp2", "detects Y"]⟩]⟩
    (by decide) (by decide)

/-- C9 counterexample: a table whose nearest preceding heading carries no id
is NOT associated with the most recently seen slug: an id-less `<h2>` resets
the current slug to absent and the following table is dropped, so the map is
empty although the most recently seen slug was `"a"`. -/
theorem c9_counterexample :
    scrape_entity_h2_tables
        ⟨[], [.h2 (some "a"), .h2 none, .tableEl ⟨[], [["x"]]⟩], [], []⟩ = [] ∧
    lookupAL (scrape_entity_h2_tables
        ⟨[], [.h2 (some "a"), .h2 none, .tableEl ⟨[], [["x"]]⟩], [], []⟩) "a" =
      none :=
  ⟨rfl, rfl⟩

/-- C9 amended: the scan updates the current slug on EVERY heading, to its
id attribute when it has one and to absent when it has none; a table is
associated with the current slug only when one is present (a table following
an id-less heading is skipped); when the same slug precedes two tables, the
later table overwrites the earlier entry (last-wins). -/
theorem c9_h2_scan (s : String) (t t2 : TableNode) (tabs : List TableNode)
    (h1s descs : List String) :
    lookupAL (scrape_entity_h2_tables
        ⟨tabs, [.h2 (some s), .tableEl t], h1s, descs⟩) s =
      some (scrape_table t) ∧
    lookupAL (scrape_entity_h2_tables
        ⟨tabs, [.h2 (some s), .tableEl t, .h2 (some s), .tableEl t2], h1s,
          descs⟩) s = some (scrape_table t2) ∧
    lookupAL (scrape_entity_h2_tables
        ⟨tabs, [.h2 (some s), .h2 none, .tableEl t], h1s, descs⟩) s = none := by
  refine ⟨?_, ?_, ?_⟩ <;>
    simp [scrape_entity_h2_tables, h2ScanStep, insertAL, lookupAL]

/-- C2 counterexample: on a document hosting two tables the list-page
assembler returns the conversion of the LAST table (`Vec::pop`), not the
first one, and the two conversions differ. -/
theorem c2_counterexample :
    fetch_techniques (.ok
        ⟨[⟨[], [["T1", "A", "B"]]⟩, ⟨[], [["T2", "C", "D"]]⟩], [], [], []⟩) =
      some (.ok ⟨[{ id := "T2", name := "C", description := "D" }]⟩) ∧
    Techniques.TechniquesTable.fromTable (scrape_table ⟨[], [["T1", "A", "B"]]⟩) =
      some ⟨[{ id := "T1", name := "A", description := "B" }]⟩ ∧
    (⟨[{ id := "T2", name := "C", description := "D" }]⟩ :
        Techniques.TechniquesTable) ≠
      ⟨[{ id := "T1", name := "A", description := "B" }]⟩ :=
  ⟨rfl, rfl, by decide⟩

/-- C2 amended: the list-page assemblers select the LAST table of the
document in document order (`Vec::pop` on the scraped tables); a document
with no table yields the empty default entity table and never an error; a
fetch error propagates unchanged. -/
theorem c2_fetch_last_table :
    (∀ d : Document, d.tables = [] →
      fetch_techniques (.ok d) = some (.ok ⟨[]⟩) ∧
      fetch_groups (.ok d) = .ok ⟨[]⟩ ∧
      fetch_mitigations (.ok d) = .ok ⟨[]⟩ ∧
      fetch_data_sources (.ok d) = .ok ⟨[]⟩) ∧
    (∀ (d : Document) (ts : List TableNode) (t : TableNode),
      d.tables = ts ++ [t] →
      fetch_techniques (.ok d) =
        (Techniques.TechniquesTable.fromTable (scrape_table t)).map Except.ok ∧
      fetch_groups (.ok d) =
        .ok (Groups.GroupsTable.fromTable (scrape_table t)) ∧
      fetch_mitigations (.ok d) =
        .ok (Mitigations.MitigationTable.fromTable (scrape_table t)) ∧
      fetch_data_sources (.ok d) =
        .ok (DataSources.DataSourcesTable.fromTable (scrape_table t))) ∧
    (∀ e : Error,
      fetch_techniques (.error e) = some (.error e) ∧
      fetch_groups (.error e) = .error e ∧
      fetch_mitigations (.error e) = .error e ∧
      fetch_data_sources (.error e) = .error e) := by
  refine ⟨?_, ?_, ?_⟩
  · intro d hd
    refine ⟨?_, ?_, ?_, ?_⟩ <;>
      simp [fetch_techniques, fetch_groups, fetch_mitigations,
        fetch_data_sources, scrape_tables, hd]
  · intro d ts t hd
    have hlast : (scrape_tables d).getLast? = some (scrape_table t) := by
      simp [scrape_tables, hd]
    refine ⟨?_, ?_, ?_, ?_⟩ <;>
      simp [fetch_techniques, fetch_groups, fetch_mitigations,
        fetch_data_sources, hlast]
  · intro e
    exact ⟨rfl, rfl, rfl, rfl⟩

/-- Witness for C2 (amended) at concrete documents. -/
theorem c2_witness :
    (fetch_techniques (.ok ⟨[], [], [], []⟩) = some (.ok ⟨[]⟩) ∧
     fetch_groups (.ok ⟨[], [], [], []⟩) = .ok ⟨[]⟩ ∧
     fetch_mitigations (.ok ⟨[], [], [], []⟩) = .ok ⟨[]⟩ ∧
     fetch_data_sources (.ok ⟨[], [], [], []⟩) = .ok ⟨[]⟩) ∧
    (fetch_techniques (.ok
        ⟨[⟨[], [["T1", "A", "B"]]⟩, ⟨[], [["T2", "C", "D"]]⟩], [], [], []⟩) =
      (Techniques.TechniquesTable.fromTable
        (scrape_table ⟨[], [["T2", "C", "D"]]⟩)).map Except.ok ∧
     fetch_groups (.ok
        ⟨[⟨[], [["T1", "A", "B"]]⟩, ⟨[], [["T2", "C", "D"]]⟩], [], [], []⟩) =
      .ok (Groups.GroupsTable.fromTable
        (scrape_table ⟨[], [["T2", "C", "D"]]⟩)) ∧
     fetch_mitigations (.ok
        ⟨[⟨[], [["T1", "A", "B"]]⟩, ⟨[], [["T2", "C", "D"]]⟩], [], [], []⟩) =
      .ok (Mitigations.MitigationTable.fromTable
        (scrape_table ⟨[], [["T2", "C", "D"]]⟩)) ∧
     fetch_data_sources (.ok
        ⟨[⟨[], [["T1", "A", "B"]]⟩, ⟨[], [["T2", "C", "D"]]⟩], [], [], []⟩) =
      .ok (DataSources.DataSourcesTable.fromTable
        (scrape_table ⟨[], [["T2", "C", "D"]]⟩))) :=
  ⟨c2_fetch_last_table.1 ⟨[], [], [], []⟩ rfl,
   c2_fetch_last_table.2.1
     ⟨[⟨[], [["T1", "A", "B"]]⟩, ⟨[], [["T2", "C", "D"]]⟩], [], [], []⟩
     [⟨[], [["T1", "A", "B"]]⟩] ⟨[], [["T2", "C", "D"]]⟩ rfl⟩

/-! ## Lemmas about the section-table map -/

/-- The removed value is the looked-up value. -/
theorem removeAL_fst (key : String) :
    ∀ m : List (String × Table), (removeAL key m).1 = lookupAL m key := by
  intro m
  induction m with
  | nil => rfl
  | cons kv rest ih =>
    obtain ⟨k, v⟩ := kv
    by_cases h : k = key
    · simp [removeAL, lookupAL, h]
    · simp [removeAL, lookupAL, h, ih]

/-- Removing one key leaves the lookup of any other key unchanged. -/
theorem removeAL_lookup (key key2 : String) (hne : key2 ≠ key) :
    ∀ m : List (String × Table),
      lookupAL (removeAL key m).2 key2 = lookupAL m key2 := by
  intro m
  induction m with
  | nil => rfl
  | cons kv rest ih =>
    obtain ⟨k, v⟩ := kv
    by_cases h : k = key
    · subst h
      simp [removeAL, lookupAL, Ne.symm hne]
    · by_cases h2 : k = key2
      · simp [removeAL, lookupAL, h, h2, hne]
      · simp [removeAL, lookupAL, h, h2, ih]

/-- C7: the detail-page assemblers populate each optional section field only
when its slug is present in the section-table map and leave it absent
otherwise, raising no error; on a document whose section map holds only a
(well-formed, non-empty) `techniques` table, `Group::fetch_group` returns a
group with `techniques` populated and `software`/`assoc_groups` absent, and
`fetch_technique` returns a technique with `procedures`, `mitigations` and
`detections` all absent. -/
theorem c7_detail_sections (gid tid : String) (doc : Document) (tt : Table)
    (h1 : lookupAL (scrape_entity_h2_tables doc) "techniques" = some tt)
    (h2 : ∀ r ∈ tt.rows, r.cols ≠ [])
    (h3 : tt.rows ≠ [])
    (h4 : lookupAL (scrape_entity_h2_tables doc) "software" = none)
    (h5 : lookupAL (scrape_entity_h2_tables doc) "aliasDescription" = none)
    (h6 : lookupAL (scrape_entity_h2_tables doc) "examples" = none)
    (h7 : lookupAL (scrape_entity_h2_tables doc) "mitigations" = none)
    (h8 : lookupAL (scrape_entity_h2_tables doc) "detection" = none) :
    (∃ g : Groups.Group,
      Groups.Group.fetch_group gid (.ok doc) = some (.ok g) ∧
      g.techniques.isSome ∧ g.software = none ∧ g.assoc_groups = none) ∧
    fetch_technique tid (.ok doc) = some (.ok
      { id := tid, name := scrape_entity_name doc,
        description := scrape_entity_description doc,
        procedures := none, mitigations := none, detections := none }) := by
  have hte : (removeAL "techniques" (scrape_entity_h2_tables doc)).1 = some tt := by
    rw [removeAL_fst]; exact h1
  have hso : (removeAL "software"
      (removeAL "techniques" (scrape_entity_h2_tables doc)).2).1 = none := by
    rw [removeAL_fst, removeAL_lookup _ _ (by decide)]; exact h4
  have hal : (removeAL "aliasDescription"
      (removeAL "software"
        (removeAL "techniques" (scrape_entity_h2_tables doc)).2).2).1 = none := by
    rw [removeAL_fst, removeAL_lookup _ _ (by decide),
      removeAL_lookup _ _ (by decide)]
    exact h5
  have hex : (removeAL "examples" (scrape_entity_h2_tables doc)).1 = none := by
    rw [removeAL_fst]; exact h6
  have hmi : (removeAL "mitigations"
      (removeAL "examples" (scrape_entity_h2_tables doc)).2).1 = none := by
    rw [removeAL_fst, removeAL_lookup _ _ (by decide)]; exact h7
  have hde : (removeAL "detection"
      (removeAL "mitigations"
        (removeAL "examples" (scrape_entity_h2_tables doc)).2).2).1 = none := by
    rw [removeAL_fst, removeAL_lookup _ _ (by decide),
      removeAL_lookup _ _ (by decide)]
    exact h8
  obtain ⟨v, hv⟩ := Option.isSome_iff_exists.mp
    (groupFoldAux_isSome Techniques.Domain.DomainTechniqueRow.fromRow
      (fun p r =>
        p.add_sub_technique (Techniques.Domain.DomainSubTechniqueRow.fromRow r))
      tt.rows [] h2)
  have hdt : Techniques.Domain.domainTechniquesOptFromTable tt =
      some (some ⟨v⟩) := by
    simp only [Techniques.Domain.domainTechniquesOptFromTable, Table.is_empty]
    rw [if_neg (by simpa [List.isEmpty_iff] using h3)]
    simp [Techniques.Domain.DomainTechniquesTable.fromTable, groupFold, hv]
  constructor
  · have hres : Groups.Group.fetch_group gid (.ok doc) = some (.ok
        { id := gid, name := scrape_entity_name doc,
          desc := scrape_entity_description doc,
          assoc_groups := none, techniques := some ⟨v⟩, software := none }) := by
      simp only [Groups.Group.fetch_group]
      rw [hte, hso, hal]
      simp [hdt]
    exact ⟨_, hres, by simp, rfl, rfl⟩
  · simp only [fetch_technique]
    rw [hex, hmi, hde]

/-- Witness for C7: a detail document whose page container holds only a
`techniques` heading (with id) and its table. -/
theorem c7_witness :
    (∃ g : Groups.Group,
      Groups.Group.fetch_group "G0018" (.ok
        ⟨[], [.h2 (some "techniques"), .tableEl ⟨[], [["T1", "N", "D", "U"]]⟩],
          ["G name"], ["G desc"]⟩) = some (.ok g) ∧
      g.techniques.isSome ∧ g.software = none ∧ g.assoc_groups = none) ∧
    fetch_technique "T1548" (.ok
        ⟨[], [.h2 (some "techniques"), .tableEl ⟨[], [["T1", "N", "D", "U"]]⟩],
          ["G name"], ["G desc"]⟩) = some (.ok
      { id := "T1548",
        name := scrape_entity_name
          ⟨[], [.h2 (some "techniques"), .tableEl ⟨[], [["T1", "N", "D", "U"]]⟩],
            ["G name"], ["G desc"]⟩,
        description := scrape_entity_description
          ⟨[], [.h2 (some "techniques"), .tableEl ⟨[], [["T1", "N", "D", "U"]]⟩],
            ["G name"], ["G desc"]⟩,
        procedures := none, mitigations := none, detections := none }) :=
  c7_detail_sections "G0018" "T1548"
    ⟨[], [.h2 (some "techniques"), .tableEl ⟨[], [["T1", "N", "D", "U"]]⟩],
      ["G name"], ["G desc"]⟩
    ⟨[], [⟨["T1", "N", "D", "U"]⟩]⟩
    (by decide) (by decide) (by decide) (by decide) (by decide) (by decide)
    (by decide) (by decide)
